import Mathlib

/-!
Formal model of the terminal Truco game implemented in `src/main.rs` of the
`reinaldorauch/truco` repository, together with proofs and refutations of the
specification claims about it.

Modelling conventions:
  - Rust `Vec<T>` is modelled as `List T` in the same element order, so
    `Vec::push` is append of a singleton at the end, `Vec::pop` removes the
    last element, and `Vec::last` reads the last element.
  - Rust enum discriminants (`as u8` casts) are modelled by explicit `val`
    functions; the values stay below 10, so `u8` arithmetic never wraps and
    plain `Nat` is faithful.
  - `turn_score: i8` is modelled as `Int`; in every reachable round it stays
    within -3..3 (it is reset to 0 each round and changes by 1 at most three
    times), so `i8` overflow never occurs and `Int` is faithful.
  - The thread-local RNG used by `Vec::shuffle` is modelled by passing the
    shuffle explicitly as a function argument; any concrete permutation (for
    example `id`) is a possible outcome of the real shuffle.
  - Operations that can panic in Rust (`Option::unwrap`, `Option::expect`,
    out-of-range `Vec::swap_remove`, `usize` underflow on the player's index
    input) are modelled as `Option`-returning functions, `none` meaning the
    process aborts.
-/

/-- Suit enum from main.rs lines 6-12, in declaration order
(`Clubs, Hearts, Spades, Diamonds`). The comments in the source mark
Clubs as "zap". -/
inductive Suit where
  | Clubs
  | Hearts
  | Spades
  | Diamonds
deriving DecidableEq, Fintype

/-- Discriminant of `Suit` (the value of `as u8` / the order used by the
derived `PartialOrd`). -/
def Suit.val : Suit → Nat
  | Suit.Clubs => 0
  | Suit.Hearts => 1
  | Suit.Spades => 2
  | Suit.Diamonds => 3

/-- Rank enum, named `Card` in main.rs lines 29-41, in declaration order
(strongest Truco rank first). -/
inductive Card where
  | Three
  | Two
  | Ace
  | Knight
  | Joker
  | Queen
  | Seven
  | Six
  | Five
  | Four
deriving DecidableEq, Fintype

/-- Discriminant of `Card` (the value of `as u8` / the order used by the
derived `PartialOrd`). -/
def Card.val : Card → Nat
  | Card.Three => 0
  | Card.Two => 1
  | Card.Ace => 2
  | Card.Knight => 3
  | Card.Joker => 4
  | Card.Queen => 5
  | Card.Seven => 6
  | Card.Six => 7
  | Card.Five => 8
  | Card.Four => 9

/-- `CardWithSuit(Card, Suit)` tuple struct from main.rs line 64;
`rank` is field `.0` and `suit` is field `.1`. -/
structure CardWithSuit where
  rank : Card
  suit : Suit
deriving DecidableEq, Fintype

/-- `CardWithSuit::is_manilha` (main.rs lines 68-70):
`(turned_card.0 as u8 + 1) == self.0 as u8`. -/
def CardWithSuit.is_manilha (self turned_card : CardWithSuit) : Bool :=
  turned_card.rank.val + 1 == self.rank.val

/-- Comparison of two `u8` discriminants, as performed by the derived
`PartialOrd` of the `Card` and `Suit` enums. The derived comparison on
fieldless enums is total, so `Ordering` (rather than `Option Ordering`)
is faithful. -/
def natCmp (a b : Nat) : Ordering :=
  if a < b then Ordering.lt else if a = b then Ordering.eq else Ordering.gt

/-- Derived `PartialOrd` of `Card` (discriminant order). -/
def Card.partial_cmp (a b : Card) : Ordering :=
  natCmp a.val b.val

/-- Derived `PartialOrd` of `Suit` (discriminant order). -/
def Suit.partial_cmp (a b : Suit) : Ordering :=
  natCmp a.val b.val

/-- `impl PartialOrd for CardWithSuit` (main.rs lines 73-80): compare the
ranks first; on a tie compare the suits. -/
def CardWithSuit.partial_cmp (a b : CardWithSuit) : Ordering :=
  match Card.partial_cmp a.rank b.rank with
  | Ordering.eq => Suit.partial_cmp a.suit b.suit
  | o => o

/-- The Rust `>` operator on `CardWithSuit` (used as
`last_drawn > drawn_card` in `check_who_won_hand`). -/
def CardWithSuit.gtb (a b : CardWithSuit) : Bool :=
  CardWithSuit.partial_cmp a b == Ordering.gt

/-- `Turn` enum from main.rs lines 88-92. -/
inductive Turn where
  | Player
  | Computer
deriving DecidableEq, Fintype

/-- The turn toggle performed after every played card
(main.rs lines 322-325). -/
def other : Turn → Turn
  | Turn.Player => Turn.Computer
  | Turn.Computer => Turn.Player

/-- The `Game` struct (main.rs lines 128-141), minus the `rng` field, which
is modelled by explicit shuffle arguments. -/
structure Game where
  player_hand : List CardWithSuit
  computer_hand : List CardWithSuit
  turned_card : Option CardWithSuit
  deck : List CardWithSuit
  player_score : Nat
  computer_score : Nat
  turn : Turn
  turn_score : Int
  turn_stack : List CardWithSuit
  score_increment : Nat
deriving DecidableEq

/-- `Game::new` (main.rs lines 146-160). -/
def Game.new : Game :=
  { player_hand := []
    computer_hand := []
    turned_card := none
    deck := []
    player_score := 0
    computer_score := 0
    turn := Turn.Player
    turn_score := 0
    turn_stack := []
    score_increment := 1 }

/-- The `suits` array of `build_deck` (main.rs line 171). -/
def suitsArray : List Suit :=
  [Suit.Diamonds, Suit.Spades, Suit.Clubs, Suit.Hearts]

/-- The `cards` array of `build_deck` (main.rs lines 172-183). -/
def cardsArray : List Card :=
  [Card.Three, Card.Two, Card.Ace, Card.Knight, Card.Joker,
   Card.Queen, Card.Seven, Card.Six, Card.Five, Card.Four]

/-- The 40 cards pushed by `build_deck`, in push order (suit-major). -/
def canonicalDeck : List CardWithSuit :=
  (suitsArray.map (fun s => cardsArray.map (fun c => CardWithSuit.mk c s))).flatten

/-- `Game::build_deck` (main.rs lines 170-192): push the 40 canonical cards
onto the existing deck (the deck is NOT cleared first), then shuffle the
whole deck. The `shuffle` argument stands for the permutation drawn from the
RNG. -/
def Game.build_deck (g : Game)
    (shuffle : List CardWithSuit → List CardWithSuit) : Game :=
  { g with deck := shuffle (g.deck ++ canonicalDeck) }

/-- `Game::init` (main.rs lines 162-164). -/
def Game.init (g : Game)
    (shuffle : List CardWithSuit → List CardWithSuit) : Game :=
  g.build_deck shuffle

/-- `Game::reset_turn` (main.rs lines 264-270): rebuild the deck, zero the
round score, empty both hands, clear the turned card. Note that neither
`turn` nor `turn_stack` is touched. -/
def Game.reset_turn (g : Game)
    (shuffle : List CardWithSuit → List CardWithSuit) : Game :=
  { g.build_deck shuffle with
    turn_score := 0
    computer_hand := []
    player_hand := []
    turned_card := none }

/-- The round-score application in `Game::start` (main.rs lines 330-334):
`if game.turn_score >= 0` the player's score is incremented, otherwise the
computer's. -/
def Game.apply_round_score (g : Game) : Game :=
  if g.turn_score ≥ 0 then
    { g with player_score := g.player_score + g.score_increment }
  else
    { g with computer_score := g.computer_score + g.score_increment }

/-- The round-end sequence of `Game::start` (main.rs lines 328-334), in
source order: `reset_turn()` is called FIRST and the sign of `turn_score`
is tested only afterwards. -/
def Game.finish_round (g : Game)
    (shuffle : List CardWithSuit → List CardWithSuit) : Game :=
  (g.reset_turn shuffle).apply_round_score

/-- `is_odd` (main.rs lines 347-349). -/
def is_odd (n : Nat) : Bool :=
  n % 2 == 1

/-- `Vec::swap_remove(i)`: return element `i` and the vector with the last
element moved into slot `i`; `none` models the panic on an out-of-range
index. Used for the player's card choice at main.rs line 301. -/
def swap_remove (l : List CardWithSuit) (i : Nat) :
    Option (CardWithSuit × List CardWithSuit) :=
  match l.get? i with
  | none => none
  | some x =>
    match l.getLast? with
    | none => none
    | some lastc => some (x, (l.set i lastc).dropLast)

/-- The player's card selection in `Game::start` (main.rs lines 299-302):
`swap_remove(chosen_card_index as usize - 1)` on a 1-based `choice`.
`choice = 0` models the `usize` underflow panic of `0 - 1`. -/
def player_discard (hand : List CardWithSuit) (choice : Nat) :
    Option (CardWithSuit × List CardWithSuit) :=
  if choice = 0 then none else swap_remove hand (choice - 1)

/-- One iteration of the dealing loop of `build_hands_and_flip`
(main.rs lines 195-203): pop a card from the deck end (`none` models the
`unwrap` panic on an empty deck); it goes to the computer's hand exactly
when the draw index is odd and the turn indicator is `Player`. -/
def dealStep (g : Game) (i : Nat) : Option Game :=
  match g.deck.getLast? with
  | none => none
  | some card =>
    if is_odd i = true ∧ g.turn = Turn.Player then
      some { g with deck := g.deck.dropLast
                    computer_hand := g.computer_hand ++ [card] }
    else
      some { g with deck := g.deck.dropLast
                    player_hand := g.player_hand ++ [card] }

/-- The `for i in 0..6` dealing loop, as iteration over the index list. -/
def Game.deal_steps (g : Game) : List Nat → Option Game
  | [] => some g
  | i :: idxs =>
    match dealStep g i with
    | none => none
    | some g2 => g2.deal_steps idxs

/-- `Game::build_hands_and_flip` (main.rs lines 194-209): deal six cards,
then pop one more card from the deck as the turned card (`Vec::pop` returns
an `Option`, assigned directly to `turned_card`). -/
def Game.build_hands_and_flip (g : Game) : Option Game :=
  match g.deal_steps [0, 1, 2, 3, 4, 5] with
  | none => none
  | some g2 =>
    some { g2 with turned_card := g2.deck.getLast?
                   deck := g2.deck.dropLast }

/-- The local `drawn_or_pile` flag of `Game::check_who_won_hand`
(main.rs lines 223-233): `true` means the newly drawn card wins the trick,
`false` means the card on top of the pile wins. -/
def drawn_or_pile (drawn_card last_drawn turned : CardWithSuit) : Bool :=
  if drawn_card.is_manilha turned && last_drawn.is_manilha turned then
    CardWithSuit.gtb last_drawn drawn_card
  else if drawn_card.is_manilha turned then
    true
  else if last_drawn.is_manilha turned then
    false
  else
    CardWithSuit.gtb last_drawn drawn_card

/-- The local `player_won` flag of `Game::check_who_won_hand`
(main.rs lines 235-255): the drawn card belongs to the side recorded in
`turn` (the check runs before the turn toggles), the pile card to the other
side. -/
def player_won (dop : Bool) (turn : Turn) : Bool :=
  if dop then
    match turn with
    | Turn.Player => true
    | Turn.Computer => false
  else
    match turn with
    | Turn.Player => false
    | Turn.Computer => true

/-- `Game::check_who_won_hand` (main.rs lines 216-262). Early-returns the
unchanged game when the trick stack is empty; `none` models the
`expect("Game not initialized")` panic when no card is turned; otherwise
adjusts `turn_score` by +1 when the player won the trick and -1 when the
computer won. -/
def Game.check_who_won_hand (g : Game) (drawn_card : CardWithSuit) :
    Option Game :=
  match g.turn_stack.getLast? with
  | none => some g
  | some last_drawn =>
    match g.turned_card with
    | none => none
    | some turned =>
      if player_won (drawn_or_pile drawn_card last_drawn turned) g.turn then
        some { g with turn_score := g.turn_score + 1 }
      else
        some { g with turn_score := g.turn_score - 1 }

/-- The tail of each iteration of the round loop (main.rs lines 313-325):
run the trick check when `hand_index > 0 && is_odd(hand_index)`, push the
drawn card onto the trick stack, and toggle the turn. -/
def Game.after_draw (g : Game) (hand_index : Nat)
    (drawn_card : CardWithSuit) : Option Game :=
  match (if 0 < hand_index ∧ is_odd hand_index = true then
           g.check_who_won_hand drawn_card
         else some g) with
  | none => none
  | some g2 =>
    some { g2 with turn_stack := g2.turn_stack ++ [drawn_card]
                   turn := other g2.turn }

/-- One iteration of the `for hand_index in 0..6` round loop
(main.rs lines 294-326). On the player's turn one number is consumed from
the input stream and the chosen card is swap-removed from the player's
hand; on the computer's turn `take_computer_hand` pops the last card of the
computer's hand (main.rs lines 211-214). -/
def Game.play_hand (g : Game) (hand_index : Nat) (choices : List Nat) :
    Option (Game × List Nat) :=
  match g.turn with
  | Turn.Player =>
    match choices with
    | [] => none
    | choice :: rest =>
      match player_discard g.player_hand choice with
      | none => none
      | some (drawn, hand2) =>
        (Game.after_draw { g with player_hand := hand2 } hand_index drawn).map
          (fun g2 => (g2, rest))
  | Turn.Computer =>
    match g.computer_hand.getLast? with
    | none => none
    | some drawn =>
      (Game.after_draw { g with computer_hand := g.computer_hand.dropLast }
          hand_index drawn).map
        (fun g2 => (g2, choices))

/-- The round loop over a list of hand indices, threading the remaining
player input through. -/
def Game.play_hands (g : Game) (choices : List Nat) :
    List Nat → Option Game
  | [] => some g
  | i :: idxs =>
    match g.play_hand i choices with
    | none => none
    | some (g2, cs2) => g2.play_hands cs2 idxs

/-- The full `for hand_index in 0..6` round loop of `Game::start`. -/
def Game.play_loop (g : Game) (choices : List Nat) : Option Game :=
  g.play_hands choices [0, 1, 2, 3, 4, 5]

/-- One iteration of the main game loop of `Game::start`
(main.rs lines 282-343): deal, play the six cards, then run the round-end
sequence (`reset_turn` followed by the score update). -/
def Game.run_round (g : Game) (choices : List Nat)
    (shuffle : List CardWithSuit → List CardWithSuit) : Option Game :=
  match g.build_hands_and_flip with
  | none => none
  | some g1 =>
    match g1.play_loop choices with
    | none => none
    | some g2 => some (g2.finish_round shuffle)

/-- The per-round external inputs of the main loop: the player's 1-based
card choices typed on stdin during the round, and the permutation the RNG
produces for the `reset_turn` reshuffle at the round's end. -/
structure RoundInput where
  choices : List Nat
  shuffle : List CardWithSuit → List CardWithSuit

/-- The main game loop of `Game::start` (main.rs lines 280-343): run rounds
until either score reaches 12 (checked after each round) or the supplied
inputs run out. -/
def run_rounds : Game → List RoundInput → Option Game
  | g, [] => some g
  | g, inp :: rest =>
    match g.run_round inp.choices inp.shuffle with
    | none => none
    | some g2 =>
      if 12 ≤ g2.player_score ∨ 12 ≤ g2.computer_score then some g2
      else run_rounds g2 rest

/-! ## Concrete demonstration states -/

/-- The game state right after `Game::new()` + `game.init()` in
`Game::start`, with the identity permutation as the shuffle outcome. -/
def demoStart : Game :=
  Game.new.init id

/-- A game state at the end of a round the computer swept: all three tricks
went to the computer, so `turn_score` is -3 when the round loop finishes. -/
def gC1 : Game :=
  { Game.new with turn_score := -3 }

/-- The deck as `reset_turn` finds it at the end of round one (with identity
shuffles): the 33 cards that were not drawn during the round. -/
def gC2 : Game :=
  { Game.new with deck := canonicalDeck.take 33 }

/-- Trick state: Six of Clubs turned (so Five is the manilha rank), the
computer's Five of Diamonds on top of the pile, the player about to have
their drawn card checked. -/
def gC3 : Game :=
  { Game.new with
    turned_card := some (CardWithSuit.mk Card.Six Suit.Clubs)
    turn_stack := [CardWithSuit.mk Card.Five Suit.Diamonds]
    turn := Turn.Player }

/-- Trick state: Six of Hearts turned, the player's Five of Clubs on the
pile, the computer about to have its drawn card checked. -/
def gC3w : Game :=
  { Game.new with
    turned_card := some (CardWithSuit.mk Card.Six Suit.Hearts)
    turn_stack := [CardWithSuit.mk Card.Five Suit.Clubs]
    turn := Turn.Computer }

/-- Trick state: Four of Clubs turned, the computer's Ace of Diamonds on
the pile, the player about to have their drawn card checked. -/
def gC4 : Game :=
  { Game.new with
    turned_card := some (CardWithSuit.mk Card.Four Suit.Clubs)
    turn_stack := [CardWithSuit.mk Card.Ace Suit.Diamonds]
    turn := Turn.Player }

/-- Trick state: Six of Clubs turned, the computer's (non-manilha) Three of
Diamonds on the pile, the player about to have their drawn card checked. -/
def gC6 : Game :=
  { Game.new with
    turned_card := some (CardWithSuit.mk Card.Six Suit.Clubs)
    turn_stack := [CardWithSuit.mk Card.Three Suit.Diamonds]
    turn := Turn.Player }

/-! ## Claim C1 -/

/-- C1: FALSE of the code as stated; this records the code bug. The claim
says the computer's persistent score is incremented when the round's final
`turn_score` is negative. But `Game::start` calls `reset_turn()` (which
zeroes `turn_score`) BEFORE testing `turn_score >= 0`, so the test always
sees 0 and the player's score is incremented after every round, whatever
the tricks gave. Concretely: after a round the computer swept
(`turn_score = -3`), the round-end sequence still gives the player the
point; and in general `finish_round` always adds `score_increment` to the
player's score and never touches the computer's. This contradicts the
source's own comment on the `turn_score` field ("positive at the end, then
player won, negative, computer won"). -/
theorem C1_round_score_always_player :
    ((gC1.finish_round id).player_score = 1 ∧
     (gC1.finish_round id).computer_score = 0) ∧
    ∀ (g : Game) (sh : List CardWithSuit → List CardWithSuit),
      (g.finish_round sh).player_score = g.player_score + g.score_increment ∧
      (g.finish_round sh).computer_score = g.computer_score := by
  refine ⟨by decide, ?_⟩
  intro g sh
  simp [Game.finish_round, Game.apply_round_score, Game.reset_turn,
        Game.build_deck]

/-! ## Claim C2 -/

/-- C2: FALSE of the code; this records the code bug. `build_deck` never
clears `self.deck` before pushing the 40 fresh cards, so only the very
first call (from `init`, on an empty deck) yields the canonical 40-card
set. The call made by `reset_turn` at the end of round one finds the 33
undealt cards still in the deck and produces a 73-card deck containing
every leftover card twice — e.g. two copies of the Three of Diamonds. -/
theorem C2_build_deck_duplicates :
    (Game.new.build_deck id).deck = canonicalDeck ∧
    (gC2.build_deck id).deck.length = 73 ∧
    (gC2.build_deck id).deck.count (CardWithSuit.mk Card.Three Suit.Diamonds)
      = 2 := by
  decide

/-! ## Claim C5 -/

/-- C5: CONFIRMED. `is_manilha card turned` holds exactly when the
discriminant of `turned`'s rank plus one equals the discriminant of
`card`'s rank (i.e. `card`'s rank is the next, weaker, rank in the
declaration order); there is no wraparound, so nothing is a manilha when a
Four is turned, and a Three is never a manilha. -/
theorem C5_is_manilha_next_rank (c t : CardWithSuit) (s : Suit) :
    c.is_manilha t = (t.rank.val + 1 == c.rank.val) ∧
    c.is_manilha (CardWithSuit.mk Card.Four s) = false ∧
    (CardWithSuit.mk Card.Three s).is_manilha t = false := by
  revert c t s
  decide

/-! ## Claim C9 -/

/-- C9: CONFIRMED. With the hand `[a, b, c]` and 1-based player choice 1,
the selection removes `a` and swap-remove order leaves `[c, b]` (the last
card moved into the freed slot), not `[b, c]`. -/
theorem C9_swap_remove (a b c : CardWithSuit) :
    player_discard [a, b, c] 1 = some (a, [c, b]) := by
  rfl

/-! ## Claim C4 -/

/-- C4: FALSE of the code; this records the code bug (the spec itself flags
the implemented behaviour as a probable bug and states the real Truco rule,
which wraps around: a turned Four makes Fives the manilhas). In the code,
`is_manilha` looks for discriminant `turned + 1`; a turned Four has
discriminant 9 and no rank has discriminant 10, so NO card is a manilha
when a Four is turned, and in trick resolution the Ace of Diamonds beats
the Five of Hearts by the base ordering: with the Four of Clubs turned and
the Ace of Diamonds on the pile, the player who draws the Five of Hearts
LOSES the trick (`turn_score` goes to -1), where the claim requires the
Five to win as a manilha. -/
theorem C4_turned_four_no_manilha :
    (∀ (c : CardWithSuit) (s : Suit),
        c.is_manilha (CardWithSuit.mk Card.Four s) = false) ∧
    (gC4.check_who_won_hand (CardWithSuit.mk Card.Five Suit.Hearts)).map
        Game.turn_score = some (-1) := by
  decide

/-! ## Claim C3 -/

/-- C3 counterexample: the claim as stated is false at this input. With the
Six of Clubs turned, both Fives compared are manilhas; the claim's suit
ordering (Diamonds strongest) requires the Five of Diamonds, played by the
computer, to win the trick, i.e. `turn_score = -1`. The code instead
awards the trick to the player's Five of Clubs: `turn_score` becomes +1. -/
theorem C3_counterexample :
    (gC3.check_who_won_hand (CardWithSuit.mk Card.Five Suit.Clubs)).map
        Game.turn_score = some 1 ∧
    ¬ ((gC3.check_who_won_hand (CardWithSuit.mk Card.Five Suit.Clubs)).map
        Game.turn_score = some (-1)) := by
  decide

/-- The suit strength that `check_who_won_hand` actually applies between
two manilhas: the smaller discriminant wins, so the declaration order read
first-to-last is strongest-to-weakest (Clubs, the "zap" of Truco, beats
Hearts beats Spades beats Diamonds). -/
def manilha_suit_strength : Suit → Nat
  | Suit.Clubs => 3
  | Suit.Hearts => 2
  | Suit.Spades => 1
  | Suit.Diamonds => 0

/-- The `turn_score` adjustment for the side that wins a trick
(main.rs lines 257-261). -/
def trick_delta : Turn → Int
  | Turn.Player => 1
  | Turn.Computer => -1

/-- Rank discriminants are distinct, so equal discriminants mean equal
ranks. -/
theorem card_val_inj (a b : Card) : a.val = b.val → a = b := by
  revert a b
  decide

/-- Comparing a discriminant with itself yields `eq`. -/
theorem natCmp_self (a : Nat) : natCmp a a = Ordering.eq := by
  simp [natCmp]

/-- On cards of equal rank, the Rust `>` reduces to the suit comparison. -/
theorem gtb_same_rank (a b : CardWithSuit) (h : a.rank = b.rank) :
    CardWithSuit.gtb a b = (Suit.partial_cmp a.suit b.suit == Ordering.gt) := by
  unfold CardWithSuit.gtb CardWithSuit.partial_cmp Card.partial_cmp
  rw [h, natCmp_self]

/-- The derived suit comparison says `gt` exactly when the left suit is
WEAKER as a manilha suit (larger discriminant = weaker). -/
theorem suit_gt_strength (s t : Suit) :
    (Suit.partial_cmp s t == Ordering.gt)
      = decide (manilha_suit_strength s < manilha_suit_strength t) := by
  revert s t
  decide

/-- Both cards being manilhas forces their ranks to be equal. -/
theorem manilha_rank_eq (t a b : CardWithSuit)
    (ha : a.is_manilha t = true) (hb : b.is_manilha t = true) :
    a.rank = b.rank := by
  unfold CardWithSuit.is_manilha at ha hb
  simp only [beq_iff_eq] at ha hb
  exact card_val_inj a.rank b.rank (ha.symm.trans hb)

/-- C3 amended: when both compared cards are manilhas, the trick goes to
the side whose card has the stronger suit under the ordering
Clubs > Hearts > Spades > Diamonds (the reverse of the claimed ordering):
the drawn card's side — the side recorded in `turn` — wins exactly when
the drawn card's suit is the stronger one, and `turn_score` moves by +1
for a player win and -1 for a computer win. In particular the Five of
Clubs beats the Five of Diamonds. -/
theorem C3_both_manilhas_clubs_strongest (g : Game) (t l d : CardWithSuit)
    (ht : g.turned_card = some t) (hl : g.turn_stack.getLast? = some l)
    (hd : d.is_manilha t = true) (hlm : l.is_manilha t = true) :
    (g.check_who_won_hand d).map Game.turn_score =
      some (g.turn_score +
        trick_delta
          (if manilha_suit_strength l.suit < manilha_suit_strength d.suit
           then g.turn else other g.turn)) := by
  have hrank : l.rank = d.rank := manilha_rank_eq t l d hlm hd
  simp only [Game.check_who_won_hand, hl, ht]
  have hdop : drawn_or_pile d l t
      = decide (manilha_suit_strength l.suit < manilha_suit_strength d.suit) := by
    unfold drawn_or_pile
    rw [hd, hlm]
    simp only [Bool.and_self, if_true]
    rw [gtb_same_rank l d hrank, suit_gt_strength]
  rw [hdop]
  by_cases hcmp : manilha_suit_strength l.suit < manilha_suit_strength d.suit <;>
    cases htn : g.turn <;>
      simp [player_won, hcmp, htn, other, trick_delta, Int.sub_eq_add_neg]

/-- Witness for the amended C3 at a concrete input: Six of Hearts turned,
the player's Five of Clubs on the pile, the computer draws the Five of
Diamonds; Clubs is the stronger manilha suit, so the player wins the trick
and `turn_score` becomes +1. -/
theorem C3_witness :
    (gC3w.turned_card = some (CardWithSuit.mk Card.Six Suit.Hearts) ∧
     gC3w.turn_stack.getLast? = some (CardWithSuit.mk Card.Five Suit.Clubs) ∧
     (CardWithSuit.mk Card.Five Suit.Diamonds).is_manilha
        (CardWithSuit.mk Card.Six Suit.Hearts) = true ∧
     (CardWithSuit.mk Card.Five Suit.Clubs).is_manilha
        (CardWithSuit.mk Card.Six Suit.Hearts) = true) ∧
    (gC3w.check_who_won_hand (CardWithSuit.mk Card.Five Suit.Diamonds)).map
        Game.turn_score =
      some (gC3w.turn_score +
        trick_delta
          (if manilha_suit_strength (CardWithSuit.mk Card.Five Suit.Clubs).suit
                < manilha_suit_strength
                    (CardWithSuit.mk Card.Five Suit.Diamonds).suit
           then gC3w.turn else other gC3w.turn)) :=
  ⟨⟨by decide, by decide, by decide, by decide⟩,
   C3_both_manilhas_clubs_strongest gC3w
     (CardWithSuit.mk Card.Six Suit.Hearts)
     (CardWithSuit.mk Card.Five Suit.Clubs)
     (CardWithSuit.mk Card.Five Suit.Diamonds)
     (by decide) (by decide) (by decide) (by decide)⟩

/-! ## Claim C6 -/

/-- C6: CONFIRMED. When exactly one of the two compared cards is a manilha,
the side that played the manilha wins the trick regardless of the base
comparison: the drawn card belongs to the side recorded in `turn` (the
check runs before the toggle) and the pile card to the opposite side, and
`turn_score` moves by +1 when the winning side is the player and -1 when
it is the computer. -/
theorem C6_single_manilha_wins (g : Game) (t l d : CardWithSuit)
    (ht : g.turned_card = some t) (hl : g.turn_stack.getLast? = some l)
    (hx : d.is_manilha t ≠ l.is_manilha t) :
    (g.check_who_won_hand d).map Game.turn_score =
      some (g.turn_score +
        trick_delta
          (if d.is_manilha t = true then g.turn else other g.turn)) := by
  simp only [Game.check_who_won_hand, hl, ht]
  cases hd : d.is_manilha t <;> cases hlm : l.is_manilha t <;>
    first
    | exact absurd (hd.trans hlm.symm) hx
    | cases htn : g.turn <;>
        simp [drawn_or_pile, player_won, hd, hlm, htn, other, trick_delta,
              Int.sub_eq_add_neg]

/-- Witness for C6 at a concrete input: Six of Clubs turned, the computer's
non-manilha Three of Diamonds on the pile, the player draws the manilha
Five of Hearts and wins the trick: `turn_score` becomes +1. -/
theorem C6_witness :
    (gC6.turned_card = some (CardWithSuit.mk Card.Six Suit.Clubs) ∧
     gC6.turn_stack.getLast? = some (CardWithSuit.mk Card.Three Suit.Diamonds) ∧
     (CardWithSuit.mk Card.Five Suit.Hearts).is_manilha
         (CardWithSuit.mk Card.Six Suit.Clubs)
       ≠ (CardWithSuit.mk Card.Three Suit.Diamonds).is_manilha
           (CardWithSuit.mk Card.Six Suit.Clubs)) ∧
    (gC6.check_who_won_hand (CardWithSuit.mk Card.Five Suit.Hearts)).map
        Game.turn_score =
      some (gC6.turn_score +
        trick_delta
          (if (CardWithSuit.mk Card.Five Suit.Hearts).is_manilha
                (CardWithSuit.mk Card.Six Suit.Clubs) = true
           then gC6.turn else other gC6.turn)) :=
  ⟨⟨by decide, by decide, by decide⟩,
   C6_single_manilha_wins gC6
     (CardWithSuit.mk Card.Six Suit.Clubs)
     (CardWithSuit.mk Card.Three Suit.Diamonds)
     (CardWithSuit.mk Card.Five Suit.Hearts)
     (by decide) (by decide) (by decide)⟩

/-! ## State-machine lemmas for the round loop -/

/-- `check_who_won_hand` only ever changes `turn_score`. -/
theorem check_preserves (g : Game) (d : CardWithSuit) (g2 : Game)
    (h : g.check_who_won_hand d = some g2) :
    g2.turn = g.turn ∧ g2.turn_stack = g.turn_stack := by
  unfold Game.check_who_won_hand at h
  cases hls : g.turn_stack.getLast? with
  | none =>
    simp only [hls] at h
    cases h
    exact ⟨rfl, rfl⟩
  | some l =>
    simp only [hls] at h
    cases ht : g.turned_card with
    | none => simp [ht] at h
    | some t =>
      simp only [ht] at h
      by_cases hpw : player_won (drawn_or_pile d l t) g.turn = true
      · rw [if_pos hpw] at h
        cases h
        exact ⟨rfl, rfl⟩
      · rw [if_neg hpw] at h
        cases h
        exact ⟨rfl, rfl⟩

/-- One loop tail flips the turn and pushes exactly one card. -/
theorem after_draw_effect (g : Game) (i : Nat) (d : CardWithSuit) (g2 : Game)
    (h : Game.after_draw g i d = some g2) :
    g2.turn = other g.turn ∧
    g2.turn_stack.length = g.turn_stack.length + 1 := by
  unfold Game.after_draw at h
  by_cases hc : 0 < i ∧ is_odd i = true
  · rw [if_pos hc] at h
    cases hk : g.check_who_won_hand d with
    | none => simp [hk] at h
    | some g1 =>
      simp only [hk] at h
      cases h
      obtain ⟨ht, hs⟩ := check_preserves g d g1 hk
      constructor
      · simp [ht]
      · simp [hs]
  · rw [if_neg hc] at h
    cases h
    constructor
    · rfl
    · simp

/-- One play flips the turn and grows the trick stack by one card,
whichever side plays. -/
theorem play_hand_effect (g : Game) (i : Nat) (cs : List Nat)
    (g2 : Game) (cs2 : List Nat)
    (h : g.play_hand i cs = some (g2, cs2)) :
    g2.turn = other g.turn ∧
    g2.turn_stack.length = g.turn_stack.length + 1 := by
  unfold Game.play_hand at h
  cases htn : g.turn with
  | Player =>
    cases cs with
    | nil => simp [htn] at h
    | cons choice rest =>
      cases hpd : player_discard g.player_hand choice with
      | none => simp [htn, hpd] at h
      | some pr =>
        obtain ⟨drawn, hand2⟩ := pr
        simp only [htn, hpd] at h
        rcases Option.map_eq_some'.mp h with ⟨g1, had, hpair⟩
        cases hpair
        exact after_draw_effect _ i drawn g2 had
  | Computer =>
    cases hco : g.computer_hand.getLast? with
    | none => simp [htn, hco] at h
    | some drawn =>
      simp only [htn, hco] at h
      rcases Option.map_eq_some'.mp h with ⟨g1, had, hpair⟩
      cases hpair
      exact after_draw_effect _ i drawn g2 had

/-- Over any list of hand indices, a successful run of the round loop flips
the turn once per index and pushes one card per index. -/
theorem play_hands_effect (idxs : List Nat) :
    ∀ (g : Game) (cs : List Nat) (g2 : Game),
      Game.play_hands g cs idxs = some g2 →
      g2.turn = other^[idxs.length] g.turn ∧
      g2.turn_stack.length = g.turn_stack.length + idxs.length := by
  induction idxs with
  | nil =>
    intro g cs g2 h
    cases h
    exact ⟨rfl, rfl⟩
  | cons i idxs ih =>
    intro g cs g2 h
    unfold Game.play_hands at h
    cases hp : g.play_hand i cs with
    | none => simp [hp] at h
    | some s =>
      obtain ⟨g1, cs1⟩ := s
      simp only [hp] at h
      obtain ⟨ht1, hs1⟩ := play_hand_effect g i cs g1 cs1 hp
      obtain ⟨ht2, hs2⟩ := ih g1 cs1 g2 h
      constructor
      · rw [ht2, ht1, List.length_cons, Function.iterate_succ_apply]
      · rw [hs2, hs1, List.length_cons]
        omega

/-- The six plays of a round leave the turn indicator exactly where it
started (six flips) and push exactly six cards. -/
theorem play_loop_effect (g : Game) (cs : List Nat) (g2 : Game)
    (h : g.play_loop cs = some g2) :
    g2.turn = g.turn ∧
    g2.turn_stack.length = g.turn_stack.length + 6 := by
  obtain ⟨ht, hs⟩ := play_hands_effect [0, 1, 2, 3, 4, 5] g cs g2 h
  refine ⟨?_, hs⟩
  rw [ht]
  cases g.turn <;> rfl

/-- A deal step changes neither the turn indicator nor the trick stack. -/
theorem dealStep_preserves (g : Game) (i : Nat) (g2 : Game)
    (h : dealStep g i = some g2) :
    g2.turn = g.turn ∧ g2.turn_stack = g.turn_stack := by
  unfold dealStep at h
  cases hd : g.deck.getLast? with
  | none => simp [hd] at h
  | some c =>
    simp only [hd] at h
    by_cases hc : is_odd i = true ∧ g.turn = Turn.Player
    · rw [if_pos hc] at h
      cases h
      exact ⟨rfl, rfl⟩
    · rw [if_neg hc] at h
      cases h
      exact ⟨rfl, rfl⟩

/-- Iterated deal steps change neither the turn indicator nor the trick
stack. -/
theorem deal_steps_preserves (idxs : List Nat) :
    ∀ (g g2 : Game), Game.deal_steps g idxs = some g2 →
      g2.turn = g.turn ∧ g2.turn_stack = g.turn_stack := by
  induction idxs with
  | nil =>
    intro g g2 h
    cases h
    exact ⟨rfl, rfl⟩
  | cons i idxs ih =>
    intro g g2 h
    unfold Game.deal_steps at h
    cases hd : dealStep g i with
    | none => simp [hd] at h
    | some g1 =>
      simp only [hd] at h
      obtain ⟨t1, s1⟩ := dealStep_preserves g i g1 hd
      obtain ⟨t2, s2⟩ := ih g1 g2 h
      exact ⟨t2.trans t1, s2.trans s1⟩

/-- Dealing changes neither the turn indicator nor the trick stack. -/
theorem bhf_preserves (g g2 : Game) (h : g.build_hands_and_flip = some g2) :
    g2.turn = g.turn ∧ g2.turn_stack = g.turn_stack := by
  unfold Game.build_hands_and_flip at h
  cases hd : Game.deal_steps g [0, 1, 2, 3, 4, 5] with
  | none => simp [hd] at h
  | some g1 =>
    simp only [hd] at h
    cases h
    exact deal_steps_preserves [0, 1, 2, 3, 4, 5] g g1 hd

/-- The round-end sequence changes neither the turn indicator nor the trick
stack. -/
theorem finish_round_preserves (g : Game)
    (sh : List CardWithSuit → List CardWithSuit) :
    (g.finish_round sh).turn = g.turn ∧
    (g.finish_round sh).turn_stack = g.turn_stack := by
  unfold Game.finish_round Game.apply_round_score Game.reset_turn
    Game.build_deck
  split <;> exact ⟨rfl, rfl⟩

/-- A completed round leaves the turn indicator unchanged (six flips) and
grows the trick stack by exactly the six cards played. -/
theorem run_round_effect (g : Game) (cs : List Nat)
    (sh : List CardWithSuit → List CardWithSuit) (g2 : Game)
    (h : g.run_round cs sh = some g2) :
    g2.turn = g.turn ∧
    g2.turn_stack.length = g.turn_stack.length + 6 := by
  unfold Game.run_round at h
  cases h1 : g.build_hands_and_flip with
  | none => simp [h1] at h
  | some ga =>
    simp only [h1] at h
    cases h2 : ga.play_loop cs with
    | none => simp [h2] at h
    | some gb =>
      simp only [h2] at h
      cases h
      obtain ⟨ta, sa⟩ := bhf_preserves g ga h1
      obtain ⟨tb, sb⟩ := play_loop_effect ga cs gb h2
      obtain ⟨tc, sc⟩ := finish_round_preserves gb sh
      refine ⟨tc.trans (tb.trans ta), ?_⟩
      rw [sc, sb, sa]

/-! ## Claim C7 -/

/-- C7 counterexample: the claim is false at the start of round two. Run
the whole first round from the freshly initialised game (identity shuffles,
the player always choosing card 1): the state in which round two's deal
begins still carries all six cards of round one on the trick stack —
`reset_turn` never clears `turn_stack` — so the stack is not empty at the
start of every round, and at round two's first play it does not hold
(exactly) the current round's cards. -/
theorem C7_counterexample :
    (demoStart.run_round [1, 1, 1] id).map (fun g => g.turn_stack.length)
      = some 6 ∧
    ¬ ((demoStart.run_round [1, 1, 1] id).map (fun g => g.turn_stack.length)
      = some 0) := by
  decide

/-- C7 amended: the trick stack is never cleared; it is empty at the start
of the first round only, and each completed round appends exactly the six
cards played in it, so at the start of round n+1 the stack holds all 6n
cards played in the match so far. Formally: a successful round grows
`turn_stack` by exactly 6. -/
theorem C7_stack_accumulates (g : Game) (cs : List Nat)
    (sh : List CardWithSuit → List CardWithSuit) (g2 : Game)
    (h : g.run_round cs sh = some g2) :
    g2.turn_stack.length = g.turn_stack.length + 6 :=
  (run_round_effect g cs sh g2 h).2

/-- The state after one full demonstration round. -/
def demoAfterRound : Game :=
  (demoStart.run_round [1, 1, 1] id).getD Game.new

/-- Witness for C7 at the concrete demonstration round: six cards on the
stack after round one, none before it. -/
theorem C7_witness :
    demoAfterRound.turn_stack.length = demoStart.turn_stack.length + 6 :=
  C7_stack_accumulates demoStart [1, 1, 1] id demoAfterRound rfl

/-! ## Claim C10 -/

/-- If the turn indicator is `Player` when the main loop is entered, it is
`Player` again after every completed round. -/
theorem run_rounds_player_turn (inputs : List RoundInput) :
    ∀ (g g2 : Game), g.turn = Turn.Player →
      run_rounds g inputs = some g2 → g2.turn = Turn.Player := by
  induction inputs with
  | nil =>
    intro g g2 hg h
    cases h
    exact hg
  | cons inp rest ih =>
    intro g g2 hg h
    unfold run_rounds at h
    cases hr : g.run_round inp.choices inp.shuffle with
    | none => simp [hr] at h
    | some g1 =>
      simp only [hr] at h
      have hp : g1.turn = Turn.Player :=
        ((run_round_effect g inp.choices inp.shuffle g1 hr).1).trans hg
      by_cases hs : 12 ≤ g1.player_score ∨ 12 ≤ g1.computer_score
      · rw [if_pos hs] at h
        cases h
        exact hp
      · rw [if_neg hs] at h
        exact ih g1 g2 hp h

/-- C10: CONFIRMED. The turn indicator is `Player` whenever a round's deal
begins: `Game::new` initialises it to `Player`, `init`/`build_deck` leave
it untouched, and every completed round toggles it exactly six times (once
per card played), an even number, while `reset_turn` does not touch it —
so the state in which any round's deal begins (the initial state, or the
state after any number of completed rounds) always carries
`turn = Player`. -/
theorem C10_turn_invariant
    (shuffle0 : List CardWithSuit → List CardWithSuit)
    (inputs : List RoundInput) (g : Game)
    (h : run_rounds (Game.new.init shuffle0) inputs = some g) :
    g.turn = Turn.Player :=
  run_rounds_player_turn inputs (Game.new.init shuffle0) g rfl h

/-- The round input of the demonstration match: the player always picks
card 1 and the reshuffle is the identity permutation. -/
def demoInput : RoundInput :=
  { choices := [1, 1, 1], shuffle := id }

/-- The state after a one-round demonstration match. -/
def demoAfterMatch : Game :=
  (run_rounds (Game.new.init id) [demoInput]).getD Game.new

/-- Witness for C10: after the concrete demonstration round the turn
indicator is back at `Player`. -/
theorem C10_witness : demoAfterMatch.turn = Turn.Player :=
  C10_turn_invariant id [demoInput] demoAfterMatch rfl

/-! ## Claim C8 -/

/-- C8: CONFIRMED. Name the seven cards at the deck's end `c0, ..., c6`
(in pop order). The six draws pop `c0..c5`; draw `i` goes to the
computer's hand exactly when `i` is odd and the turn indicator is
`Player`, and to the player's hand otherwise — so with `turn = Player` the
player receives `[c0, c2, c4]` and the computer `[c1, c3, c5]`, three
cards each, while with `turn = Computer` all six draws go to the player.
One further card, `c6`, is then popped as the turned card: exactly seven
cards leave the deck. -/
theorem C8_dealing (g : Game) (rest : List CardWithSuit)
    (c0 c1 c2 c3 c4 c5 c6 : CardWithSuit)
    (hdeck : g.deck =
      rest ++ [c6] ++ [c5] ++ [c4] ++ [c3] ++ [c2] ++ [c1] ++ [c0]) :
    g.build_hands_and_flip = some { g with
      deck := rest
      player_hand := g.player_hand ++
        (if g.turn = Turn.Player then [c0, c2, c4]
         else [c0, c1, c2, c3, c4, c5])
      computer_hand := g.computer_hand ++
        (if g.turn = Turn.Player then [c1, c3, c5] else [])
      turned_card := some c6 } := by
  cases htn : g.turn <;>
    simp [Game.build_hands_and_flip, Game.deal_steps, dealStep, is_odd,
          hdeck, htn, List.getLast?_concat, List.dropLast_concat]

/-- Witness for C8 at the freshly initialised demonstration game (identity
shuffle): the deck ends in the seven Hearts cards `K J Q 7 6 5 4` (pop
order `4, 5, 6, 7, Q, J, K`), the player receives `4, 6, Q` of Hearts, the
computer `5, 7, J` of Hearts, and the Knight of Hearts is turned. -/
theorem C8_witness :
    (demoStart.deck =
      canonicalDeck.take 33
        ++ [CardWithSuit.mk Card.Knight Suit.Hearts]
        ++ [CardWithSuit.mk Card.Joker Suit.Hearts]
        ++ [CardWithSuit.mk Card.Queen Suit.Hearts]
        ++ [CardWithSuit.mk Card.Seven Suit.Hearts]
        ++ [CardWithSuit.mk Card.Six Suit.Hearts]
        ++ [CardWithSuit.mk Card.Five Suit.Hearts]
        ++ [CardWithSuit.mk Card.Four Suit.Hearts]) ∧
    demoStart.build_hands_and_flip = some { demoStart with
      deck := canonicalDeck.take 33
      player_hand := demoStart.player_hand ++
        (if demoStart.turn = Turn.Player then
          [CardWithSuit.mk Card.Four Suit.Hearts,
           CardWithSuit.mk Card.Six Suit.Hearts,
           CardWithSuit.mk Card.Queen Suit.Hearts]
         else
          [CardWithSuit.mk Card.Four Suit.Hearts,
           CardWithSuit.mk Card.Five Suit.Hearts,
           CardWithSuit.mk Card.Six Suit.Hearts,
           CardWithSuit.mk Card.Seven Suit.Hearts,
           CardWithSuit.mk Card.Queen Suit.Hearts,
           CardWithSuit.mk Card.Joker Suit.Hearts])
      computer_hand := demoStart.computer_hand ++
        (if demoStart.turn = Turn.Player then
          [CardWithSuit.mk Card.Five Suit.Hearts,
           CardWithSuit.mk Card.Seven Suit.Hearts,
           CardWithSuit.mk Card.Joker Suit.Hearts]
         else [])
      turned_card := some (CardWithSuit.mk Card.Knight Suit.Hearts) } :=
  ⟨by decide,
   C8_dealing demoStart (canonicalDeck.take 33)
     (CardWithSuit.mk Card.Four Suit.Hearts)
     (CardWithSuit.mk Card.Five Suit.Hearts)
     (CardWithSuit.mk Card.Six Suit.Hearts)
     (CardWithSuit.mk Card.Seven Suit.Hearts)
     (CardWithSuit.mk Card.Queen Suit.Hearts)
     (CardWithSuit.mk Card.Joker Suit.Hearts)
     (CardWithSuit.mk Card.Knight Suit.Hearts)
     (by decide)⟩
